import Mathlib

/-!
Shallow embedding of `src/holo/model.py` (pyro Bayesian observation models
for fitting scattering-sphere parameters to holographic data).

Modelling choices:
* A pyro sampling run is made deterministic by abstracting the sampling
  primitive as `Sampler : String → Distribution → ℝ`: given a site name and
  a distribution it returns the value the random-number engine produced
  there.  Every `pyro.sample` call is recorded as an `Event` (site name,
  distribution object passed, value returned), the embedded ambient trace.
* `pyro.condition(f, data)` becomes `pyroCondition`, which transforms a
  sampler so that conditioned sites return the fixed value.
* Scalar torch tensors sampled as parameters are real numbers for the
  likelihood-level functions; the gradient-tracking flag (relevant to
  `detach` in `HolopyAlphaModel.forward`) is modelled by `Tensor0`.
* numpy arrays / torch tensors with shape are `NDArray` / `TorchArr`
  (shape list plus flat row-major data); `squeeze` drops length-1 axes.
* Python exceptions become `Except PyError`; a python `dict` becomes an
  association list with distinct keys, looked up by `dlookup`.
-/

set_option linter.unusedVariables false

namespace Holo

/-- Embeds `torch.log` on a scalar tensor (natural logarithm). -/
noncomputable def torch.log (x : ℝ) : ℝ := Real.log x

/-- Embeds `torch.exp` on a scalar tensor. -/
noncomputable def torch.exp (x : ℝ) : ℝ := Real.exp x

/-- Python exceptions raised (or raisable) by the adapter code. -/
inductive PyError where
  | notImplementedError (msg : String)
  | keyError (key : String)
  | runtimeError (msg : String)
deriving DecidableEq

/-- Embeds `pyro.distributions.Normal(loc, scale)`: the distribution object
with the two constructor arguments as passed by the model code. -/
inductive Distribution where
  | Normal (loc scale : ℝ)

/-- One `pyro.sample(site, d)` call as registered in the ambient trace:
the site name, the distribution object passed, and the value returned. -/
structure Event where
  site : String
  dist : Distribution
  value : ℝ

/-- The sampling primitive: what value the probabilistic engine returns at a
given named site for a given distribution.  A fixed random seed corresponds
to a fixed `Sampler`. -/
abbrev Sampler : Type := String → Distribution → ℝ

/-- Embeds one `pyro.sample(site, d)` call under sampler `σ`. -/
def pyroSample (σ : Sampler) (site : String) (d : Distribution) : Event :=
  { site := site, dist := d, value := σ site d }

/-- Python `dict` lookup `l[k]` on an association list (keys unique). -/
def dlookup {β : Type} (k : String) : List (String × β) → Option β
  | [] => none
  | kv :: rest => if kv.1 = k then some kv.2 else dlookup k rest

/-- Embeds `pyro.condition(f, data)`: sites listed in `data` stop consulting
the engine and return the fixed observed value. -/
def pyroCondition (data : List (String × ℝ)) (σ : Sampler) : Sampler :=
  fun site d =>
    match dlookup site data with
    | some v => v
    | none => σ site d

/-- The `data` argument of `BaseModel.model`: a record with fields
`x` (input) and `y` (observed output). -/
structure ObsData (X : Type) where
  x : X
  y : ℝ

/-- The observable outcome of one `likelihood(x)` run of `NormalModel`:
the `params` dict built in the comprehension, the full sample trace
(`events`), the value of the local `expected`, and the returned sample. -/
structure LikRun where
  params : List (String × ℝ)
  events : List Event
  expected : ℝ
  ret : ℝ

/-- Embeds `NormalModel.likelihood` (src/holo/model.py lines 39-46).
`forward` stands for the subclass-supplied `self.forward`; `priors` is
`self.params.items()` in insertion order. -/
def NormalModel.likelihood {X : Type} (σ : Sampler)
    (forward : X → List (String × ℝ) → ℝ)
    (priors : List (String × ℝ × ℝ)) (x : X) : LikRun :=
  let paramEvents := priors.map fun kv => pyroSample σ kv.1 (.Normal kv.2.1 kv.2.2)
  let params := paramEvents.map fun e => (e.site, e.value)
  let noise_sd : ℝ := 0.1
  let expected := forward x params
  let likEvent := pyroSample σ "likelihood" (.Normal expected (noise_sd ^ 2))
  { params := params, events := paramEvents ++ [likEvent],
    expected := expected, ret := likEvent.value }

/-- The distribution `NoisyNormalModel.likelihood` passes to `pyro.sample`
for the prior entry `kv`: for the key `"noise_sd"` the code first takes
`torch.log` of both tuple components (lines 60-62), otherwise it passes the
tuple straight through (line 64). -/
noncomputable def noisyPriorDist (kv : String × ℝ × ℝ) : Distribution :=
  if kv.1 = "noise_sd" then .Normal (torch.log kv.2.1) (torch.log kv.2.2)
  else .Normal kv.2.1 kv.2.2

/-- The observable outcome of one `likelihood(x)` run of `NoisyNormalModel`:
the `params` dict built in the loop, the parameter-sampling trace, the value
of `expected` (computed before the noise lookup, line 68), and the final
`pyro.sample('likelihood', ...)` event — or a `KeyError` when
`params['noise_sd']` (line 69) is missing. -/
structure NoisyRun where
  params : List (String × ℝ)
  paramEvents : List Event
  expected : ℝ
  result : Except PyError Event

/-- Embeds `NoisyNormalModel.likelihood` (src/holo/model.py lines 55-71). -/
noncomputable def NoisyNormalModel.likelihood {X : Type} (σ : Sampler)
    (forward : X → List (String × ℝ) → ℝ)
    (priors : List (String × ℝ × ℝ)) (x : X) : NoisyRun :=
  let paramEvents := priors.map fun kv => pyroSample σ kv.1 (noisyPriorDist kv)
  let params := paramEvents.map fun e => (e.site, e.value)
  let expected := forward x params
  { params := params, paramEvents := paramEvents, expected := expected,
    result :=
      match dlookup "noise_sd" params with
      | none => .error (.keyError "noise_sd")
      | some ln_noise =>
          .ok (pyroSample σ "likelihood" (.Normal expected (torch.exp ln_noise ^ 2))) }

/-- Embeds `BaseModel.model` (lines 22-26): read `data['x']` and
`data['y']`, condition the subclass `likelihood` so that site
`"likelihood"` is fixed to `y`, and run it on `x`.  `likelihood` is the
method the subclass supplies, as a function of the ambient sampler. -/
def BaseModel.model {X R : Type} (likelihood : Sampler → X → R)
    (σ : Sampler) (data : ObsData X) : R :=
  likelihood (pyroCondition [("likelihood", data.y)] σ) data.x

/-- Embeds `BaseModel.__call__` (lines 20-21): returns `self.model(data)`. -/
def BaseModel.call {X R : Type} (likelihood : Sampler → X → R)
    (σ : Sampler) (data : ObsData X) : R :=
  BaseModel.model likelihood σ data

/-- Embeds `BaseModel.likelihood` (lines 28-29): unconditionally raises. -/
def BaseModel.likelihood {X : Type} (x : X) : Except PyError ℝ :=
  .error (.notImplementedError "Implement in subclass")

/-- Embeds `BaseModel.forward` (lines 31-32): unconditionally raises. -/
def BaseModel.forward {X : Type} (x : X) (params : List (String × ℝ)) :
    Except PyError ℝ :=
  .error (.notImplementedError "Implement in subclass")

/-- The attributes `BaseModel.__init__` (lines 16-18) stores on `self`:
the prior dict and the list of its keys. -/
structure ModelState where
  params : List (String × ℝ × ℝ)
  param_names : List String

/-- Embeds `BaseModel.__init__` (lines 16-18): stores the prior spec and
records `list(self.params.keys())`. -/
def BaseModel.init (params : List (String × ℝ × ℝ)) : ModelState :=
  { params := params, param_names := params.map Prod.fst }

/-- State-passing view of `NormalModel.likelihood`: the method reads
`self.params` and performs no attribute assignment, so the post-state is
the pre-state. -/
def NormalModel.likelihoodSt {X : Type} (σ : Sampler)
    (forward : X → List (String × ℝ) → ℝ) (st : ModelState) (x : X) :
    LikRun × ModelState :=
  (NormalModel.likelihood σ forward st.params x, st)

/-- State-passing view of `NoisyNormalModel.likelihood`: reads
`self.params`, assigns no attribute. -/
noncomputable def NoisyNormalModel.likelihoodSt {X : Type} (σ : Sampler)
    (forward : X → List (String × ℝ) → ℝ) (st : ModelState) (x : X) :
    NoisyRun × ModelState :=
  (NoisyNormalModel.likelihood σ forward st.params x, st)

/-- State-passing view of invoking a `NormalModel` as a callable
(`__call__` → `model` → conditioned `likelihood`): no attribute mutation. -/
def NormalModel.callSt {X : Type} (σ : Sampler)
    (forward : X → List (String × ℝ) → ℝ) (st : ModelState)
    (data : ObsData X) : LikRun × ModelState :=
  (BaseModel.call (fun σc x => NormalModel.likelihood σc forward st.params x)
      σ data, st)

/-- A scalar torch tensor, carrying its autograd flag: what
`HolopyAlphaModel.forward` receives in `params`. -/
structure Tensor0 where
  val : ℝ
  requires_grad : Bool

/-- Embeds `Tensor.detach()`: same value, removed from the autograd graph. -/
def Tensor0.detach (t : Tensor0) : Tensor0 :=
  { val := t.val, requires_grad := false }

/-- Embeds `Tensor.numpy()`: torch raises a RuntimeError when the tensor
still requires grad, otherwise hands back the plain numeric value. -/
def Tensor0.numpy (t : Tensor0) : Except PyError ℝ :=
  if t.requires_grad then
    .error (.runtimeError "Can not call numpy() on Tensor that requires grad")
  else
    .ok t.val

/-- A numpy ndarray: shape and flat row-major data. -/
structure NDArray where
  shape : List Nat
  data : List ℝ

/-- Embeds `ndarray.squeeze()`: removes all axes of length 1, leaving the
underlying data untouched. -/
def NDArray.squeeze (a : NDArray) : NDArray :=
  { shape := a.shape.filter (fun n => n != 1), data := a.data }

/-- A torch tensor with shape, as produced by `torch.from_numpy`. -/
structure TorchArr where
  shape : List Nat
  data : List ℝ
  requires_grad : Bool

/-- Embeds `torch.from_numpy`: shares shape and data, no grad tracking. -/
def torch.from_numpy (a : NDArray) : TorchArr :=
  { shape := a.shape, data := a.data, requires_grad := false }

/-- Embeds `holopy.scattering.Sphere(center, n, r)`. -/
structure Sphere where
  center : ℝ × ℝ × ℝ
  n : ℝ
  r : ℝ

/-- The external `calc_holo` result: a structured (xarray-like) object whose
`.values` is the numeric ndarray of the simulated hologram. -/
structure Hologram where
  values : NDArray

/-- Python `params[k]` on the sampled-parameter dict: `KeyError` when the
key is absent. -/
def dictGetT (params : List (String × Tensor0)) (k : String) :
    Except PyError Tensor0 :=
  match dlookup k params with
  | some v => .ok v
  | none => .error (.keyError k)

/-- Embeds `HolopyAlphaModel.forward` (lines 75-85).  `calc_holo` is the
external scattering calculator, abstracted as a function argument. -/
def HolopyAlphaModel.forward {X : Type}
    (calc_holo : X → Sphere → ℝ → Hologram)
    (x : X) (params : List (String × Tensor0)) : Except PyError TorchArr := do
  let x0 ← ((← dictGetT params "x").detach).numpy
  let x1 ← ((← dictGetT params "y").detach).numpy
  let x2 ← ((← dictGetT params "z").detach).numpy
  let n ← ((← dictGetT params "n").detach).numpy
  let r ← ((← dictGetT params "r").detach).numpy
  let alpha ← ((← dictGetT params "alpha").detach).numpy
  let sph : Sphere := { center := (x0, x1, x2), n := n, r := r }
  let mod := ((calc_holo x sph alpha).values).squeeze
  return torch.from_numpy mod

/-- A raw holopy measurement: an xarray-like object whose `.values` is the
numeric ndarray of recorded intensities. -/
structure RawMeasurement where
  values : NDArray

/-- The `{'x': ..., 'y': ...}` record `convert_holopy` returns. -/
structure HoloObs where
  x : RawMeasurement
  y : TorchArr

/-- Embeds `HolopyAlphaModel.convert_holopy` (lines 87-90): `x` is the raw
measurement unchanged, `y` is `torch.from_numpy(data.values.squeeze())`. -/
def HolopyAlphaModel.convert_holopy (data : RawMeasurement) : HoloObs :=
  { x := data, y := torch.from_numpy data.values.squeeze }

/-! Concrete inputs used to instantiate the theorems below. -/

/-- A 2×2 measurement of ones (no length-1 axis to squeeze away). -/
def cexMeasurement : RawMeasurement :=
  { values := { shape := [2, 2], data := [1, 1, 1, 1] } }

/-- A sampler returning 1 at every site. -/
def constSampler : Sampler := fun _ _ => 1

/-- A trivial forward function on the unit input type. -/
def zeroForward : Unit → List (String × ℝ) → ℝ := fun _ _ => 0

/-- A prior spec containing the reserved `"noise_sd"` key and one other. -/
def noisyPriors : List (String × ℝ × ℝ) := [("noise_sd", (2, 3)), ("a", (0, 1))]

/-- A prior spec without the `"noise_sd"` key. -/
def gaussPriors : List (String × ℝ × ℝ) := [("a", (0, 1))]

/-- Sampled parameters for the scattering forward model, all still attached
to the autograd graph. -/
def sphereParams : List (String × Tensor0) :=
  [("x", { val := 1, requires_grad := true }),
   ("y", { val := 2, requires_grad := true }),
   ("z", { val := 3, requires_grad := true }),
   ("n", { val := 4, requires_grad := true }),
   ("r", { val := 5, requires_grad := true }),
   ("alpha", { val := 6, requires_grad := true })]

/-- A stand-in external scattering calculator with a constant result. -/
def constCalc : Unit → Sphere → ℝ → Hologram :=
  fun _ _ _ => { values := { shape := [1, 3], data := [0, 0, 0] } }

/-- A concrete observation record on the unit input type. -/
def obs0 : ObsData Unit := { x := (), y := 5 }

/-! ### Helper lemmas about dict lookup and key filtering -/

theorem dlookup_of_mem {β : Type} {k : String} {b : β} {l : List (String × β)}
    (hnd : (l.map Prod.fst).Nodup) (hmem : (k, b) ∈ l) :
    dlookup k l = some b := by
  induction l with
  | nil => cases hmem
  | cons hd tl ih =>
    simp only [List.map_cons, List.nodup_cons] at hnd
    rcases List.mem_cons.mp hmem with h | h
    · rw [← h]
      simp [dlookup]
    · have hk : k ∈ tl.map Prod.fst := List.mem_map_of_mem Prod.fst h
      have hne : hd.1 ≠ k := fun he => hnd.1 (he ▸ hk)
      simp only [dlookup, if_neg hne]
      exact ih hnd.2 h

theorem dlookup_eq_none {β : Type} {k : String} {l : List (String × β)}
    (h : k ∉ l.map Prod.fst) : dlookup k l = none := by
  induction l with
  | nil => rfl
  | cons hd tl ih =>
    simp only [List.map_cons, List.mem_cons, not_or] at h
    have hne : hd.1 ≠ k := fun he => h.1 he.symm
    simp only [dlookup, if_neg hne]
    exact ih h.2

theorem filter_key_of_not_mem {β : Type} {k : String} {l : List (String × β)}
    (h : k ∉ l.map Prod.fst) :
    l.filter (fun kv => kv.1 == k) = [] := by
  induction l with
  | nil => rfl
  | cons hd tl ih =>
    simp only [List.map_cons, List.mem_cons, not_or] at h
    have hne : (hd.1 == k) = false :=
      beq_eq_false_iff_ne.mpr (fun he => h.1 (he ▸ rfl))
    simp [List.filter_cons, hne, ih h.2]

theorem filter_key_of_mem {β : Type} {k : String} {b : β} {l : List (String × β)}
    (hnd : (l.map Prod.fst).Nodup) (hmem : (k, b) ∈ l) :
    l.filter (fun kv => kv.1 == k) = [(k, b)] := by
  induction l with
  | nil => cases hmem
  | cons hd tl ih =>
    simp only [List.map_cons, List.nodup_cons] at hnd
    rcases List.mem_cons.mp hmem with h | h
    · rw [← h] at hnd ⊢
      simp [List.filter_cons, filter_key_of_not_mem hnd.1]
    · have hk : k ∈ tl.map Prod.fst := List.mem_map_of_mem Prod.fst h
      have hne : (hd.1 == k) = false :=
        beq_eq_false_iff_ne.mpr (fun he => hnd.1 (he ▸ hk))
      simp [List.filter_cons, hne, ih hnd.2 h]

/-! ### Shape lemmas for the two likelihood runs -/

theorem normal_params_eq {X : Type} (σ : Sampler)
    (forward : X → List (String × ℝ) → ℝ) (priors : List (String × ℝ × ℝ))
    (x : X) :
    (NormalModel.likelihood σ forward priors x).params =
      priors.map (fun kv => (kv.1, σ kv.1 (Distribution.Normal kv.2.1 kv.2.2))) := by
  simp [NormalModel.likelihood, pyroSample, List.map_map, Function.comp]

theorem noisy_params_eq {X : Type} (σ : Sampler)
    (forward : X → List (String × ℝ) → ℝ) (priors : List (String × ℝ × ℝ))
    (x : X) :
    (NoisyNormalModel.likelihood σ forward priors x).params =
      priors.map (fun kv => (kv.1, σ kv.1 (noisyPriorDist kv))) := by
  simp [NoisyNormalModel.likelihood, pyroSample, List.map_map, Function.comp]

theorem pair_keys_eq {β γ : Type} (l : List (String × β)) (g : String × β → γ) :
    ((l.map fun kv => (kv.1, g kv)).map Prod.fst) = l.map Prod.fst := by
  rw [List.map_map]
  exact List.map_congr_left fun kv _ => rfl

theorem noisy_params_map (σ : Sampler) (priors : List (String × ℝ × ℝ)) :
    ((priors.map fun kv => pyroSample σ kv.1 (noisyPriorDist kv)).map
        fun e => (e.site, e.value)) =
      priors.map fun kv => (kv.1, σ kv.1 (noisyPriorDist kv)) := by
  simp [List.map_map, pyroSample, Function.comp]

theorem noisy_result_eq {X : Type} (σ : Sampler)
    (forward : X → List (String × ℝ) → ℝ) (priors : List (String × ℝ × ℝ))
    (x : X) :
    (NoisyNormalModel.likelihood σ forward priors x).result =
      match dlookup "noise_sd" (NoisyNormalModel.likelihood σ forward priors x).params with
      | none => Except.error (PyError.keyError "noise_sd")
      | some ln_noise =>
          Except.ok (pyroSample σ "likelihood"
            (Distribution.Normal
              (NoisyNormalModel.likelihood σ forward priors x).expected
              (torch.exp ln_noise ^ 2))) := rfl

/-! ### Claim theorems -/

/-- C7: invoking `likelihood` or `forward` directly on the base model
always yields the NotImplementedError failure, for any input, and never a
successful value. -/
theorem base_model_abstract_raises {X : Type} (x : X)
    (params : List (String × ℝ)) :
    BaseModel.likelihood x =
      Except.error (PyError.notImplementedError "Implement in subclass") ∧
    BaseModel.forward x params =
      Except.error (PyError.notImplementedError "Implement in subclass") ∧
    (∀ v : ℝ, BaseModel.likelihood x ≠ Except.ok v) ∧
    (∀ v : ℝ, BaseModel.forward x params ≠ Except.ok v) := by
  refine ⟨rfl, rfl, ?_, ?_⟩ <;> intro v h <;>
    simp [BaseModel.likelihood, BaseModel.forward] at h

/-- C8: the prior spec and the recorded key list stored at construction are
what `__init__` received (keys in construction order), and no invocation of
the model, of `likelihood`, or of `forward` changes the model state; in
particular a second invocation starts from the same state as the first. -/
theorem model_state_immutable {X : Type} (σ σ2 : Sampler)
    (forward : X → List (String × ℝ) → ℝ) (ps : List (String × ℝ × ℝ))
    (st : ModelState) (x : X) (d d2 : ObsData X) :
    (BaseModel.init ps).params = ps ∧
    (BaseModel.init ps).param_names = ps.map Prod.fst ∧
    (NormalModel.likelihoodSt σ forward st x).2 = st ∧
    (NoisyNormalModel.likelihoodSt σ forward st x).2 = st ∧
    (NormalModel.callSt σ forward st d).2 = st ∧
    (NormalModel.callSt σ2 forward (NormalModel.callSt σ forward st d).2 d2).1 =
      (NormalModel.callSt σ2 forward st d2).1 :=
  ⟨rfl, rfl, rfl, rfl, rfl, rfl⟩

/-- C3: `NormalModel.likelihood` uses the fixed noise standard deviation
0.1 — independent of the prior spec and the input — and returns one sample
drawn at site "likelihood" from Normal(forward(x, params), 0.1² = 0.01). -/
theorem normal_likelihood_fixed_noise {X : Type} (σ : Sampler)
    (forward : X → List (String × ℝ) → ℝ) (priors : List (String × ℝ × ℝ))
    (x : X) :
    (NormalModel.likelihood σ forward priors x).ret =
      σ "likelihood" (Distribution.Normal
        (NormalModel.likelihood σ forward priors x).expected ((0.1 : ℝ) ^ 2)) ∧
    (0.1 : ℝ) ^ 2 = 0.01 ∧
    (NormalModel.likelihood σ forward priors x).expected =
      forward x (NormalModel.likelihood σ forward priors x).params ∧
    Event.mk "likelihood"
        (Distribution.Normal (NormalModel.likelihood σ forward priors x).expected
          ((0.1 : ℝ) ^ 2))
        (NormalModel.likelihood σ forward priors x).ret
      ∈ (NormalModel.likelihood σ forward priors x).events := by
  refine ⟨rfl, by norm_num, rfl, ?_⟩
  simp [NormalModel.likelihood, pyroSample]

/-- C2 (counterexample): on a concrete 2×2 measurement, `convert_holopy`
does not return an observed-output tensor of 1-D shape [4]: `squeeze` keeps
both axes because neither has length 1, so the claim as stated fails. -/
theorem convert_holopy_not_flat_cex :
    ¬ ((HolopyAlphaModel.convert_holopy cexMeasurement).y.shape = [2 * 2] ∧
       (HolopyAlphaModel.convert_holopy cexMeasurement).x = cexMeasurement) :=
  fun h => absurd h.1 (by decide)

/-- C2 (amended): for a raw measurement whose values array has shape (H, W)
with H > 1 and W > 1, `convert_holopy` returns the raw measurement
unchanged in "x", and in "y" a tensor holding exactly the measurement's
H×W values with the (H, W) shape kept intact — `squeeze` only removes
length-1 axes, it does not flatten. -/
theorem convert_holopy_squeezed (H W : Nat) (hH : 1 < H) (hW : 1 < W)
    (d : RawMeasurement) (hs : d.values.shape = [H, W])
    (hlen : d.values.data.length = H * W) :
    (HolopyAlphaModel.convert_holopy d).x = d ∧
    (HolopyAlphaModel.convert_holopy d).y.shape = [H, W] ∧
    (HolopyAlphaModel.convert_holopy d).y.data = d.values.data ∧
    (HolopyAlphaModel.convert_holopy d).y.data.length = H * W := by
  refine ⟨rfl, ?_, rfl, hlen⟩
  show (d.values.shape.filter fun n => n != 1) = [H, W]
  rw [hs]
  simp [List.filter_cons, bne_iff_ne.mpr (ne_of_gt hH), bne_iff_ne.mpr (ne_of_gt hW)]

/-- C2 (witness): the amended statement instantiated on the concrete 2×2
measurement of ones. -/
theorem convert_holopy_squeezed_witness :
    ((1 : Nat) < 2 ∧ cexMeasurement.values.shape = [2, 2] ∧
      cexMeasurement.values.data.length = 2 * 2) ∧
    ((HolopyAlphaModel.convert_holopy cexMeasurement).x = cexMeasurement ∧
     (HolopyAlphaModel.convert_holopy cexMeasurement).y.shape = [2, 2] ∧
     (HolopyAlphaModel.convert_holopy cexMeasurement).y.data =
       cexMeasurement.values.data ∧
     (HolopyAlphaModel.convert_holopy cexMeasurement).y.data.length = 2 * 2) :=
  ⟨⟨by decide, rfl, by decide⟩,
   convert_holopy_squeezed 2 2 (by decide) (by decide) cexMeasurement rfl (by decide)⟩

/-- C1: whenever the prior spec maps "noise_sd" to (loc, scale), the value
`NoisyNormalModel.likelihood` stores under "noise_sd" is the un-exponentiated
sample drawn at that site from Normal(ln loc, ln scale), and the noise
passed as the second constructor argument of the "likelihood" site's
Normal distribution is exp(that sample)². -/
theorem noisy_lognoise_consistent {X : Type} (σ : Sampler)
    (forward : X → List (String × ℝ) → ℝ) (priors : List (String × ℝ × ℝ))
    (x : X) (loc scale : ℝ)
    (hmem : ("noise_sd", (loc, scale)) ∈ priors)
    (hnd : (priors.map Prod.fst).Nodup) :
    dlookup "noise_sd" (NoisyNormalModel.likelihood σ forward priors x).params =
      some (σ "noise_sd" (Distribution.Normal (Real.log loc) (Real.log scale))) ∧
    (NoisyNormalModel.likelihood σ forward priors x).result =
      Except.ok (pyroSample σ "likelihood"
        (Distribution.Normal
          (NoisyNormalModel.likelihood σ forward priors x).expected
          (Real.exp (σ "noise_sd"
              (Distribution.Normal (Real.log loc) (Real.log scale))) ^ 2))) := by
  have hdist : noisyPriorDist ("noise_sd", (loc, scale)) =
      Distribution.Normal (Real.log loc) (Real.log scale) := by
    simp [noisyPriorDist, torch.log]
  have hdl : dlookup "noise_sd"
      (priors.map fun kv => (kv.1, σ kv.1 (noisyPriorDist kv))) =
      some (σ "noise_sd" (Distribution.Normal (Real.log loc) (Real.log scale))) := by
    have h := dlookup_of_mem (b := σ "noise_sd" (noisyPriorDist ("noise_sd", (loc, scale))))
      (by rw [pair_keys_eq]; exact hnd)
      (List.mem_map_of_mem (fun kv => (kv.1, σ kv.1 (noisyPriorDist kv))) hmem)
    rwa [hdist] at h
  refine ⟨by rw [noisy_params_eq]; exact hdl, ?_⟩
  simp only [noisy_result_eq, noisy_params_eq, hdl, torch.exp]

/-- C5: in `NoisyNormalModel.likelihood`, every prior entry whose name is
not "noise_sd" produces exactly one sample event, at the site named after
the parameter, from the Normal distribution parameterized directly by its
(loc, scale) pair, and that sample is stored in the params dict under the
parameter's name. -/
theorem noisy_other_params_normal {X : Type} (σ : Sampler)
    (forward : X → List (String × ℝ) → ℝ) (priors : List (String × ℝ × ℝ))
    (x : X) (k : String) (loc scale : ℝ)
    (hmem : (k, (loc, scale)) ∈ priors) (hk : k ≠ "noise_sd")
    (hnd : (priors.map Prod.fst).Nodup) :
    (NoisyNormalModel.likelihood σ forward priors x).paramEvents.filter
        (fun e => e.site == k) =
      [Event.mk k (Distribution.Normal loc scale)
        (σ k (Distribution.Normal loc scale))] ∧
    dlookup k (NoisyNormalModel.likelihood σ forward priors x).params =
      some (σ k (Distribution.Normal loc scale)) := by
  have hdist : noisyPriorDist (k, (loc, scale)) = Distribution.Normal loc scale := by
    simp [noisyPriorDist, hk]
  constructor
  · show ((priors.map fun kv => pyroSample σ kv.1 (noisyPriorDist kv)).filter
        fun e => e.site == k) = _
    rw [List.filter_map]
    have hcomp : ((fun e : Event => e.site == k) ∘
        fun kv => pyroSample σ kv.1 (noisyPriorDist kv)) =
        fun kv : String × ℝ × ℝ => kv.1 == k := rfl
    rw [hcomp, filter_key_of_mem hnd hmem]
    simp [pyroSample, hdist]
  · rw [noisy_params_eq]
    have h := dlookup_of_mem (b := σ k (noisyPriorDist (k, (loc, scale))))
      (by rw [pair_keys_eq]; exact hnd)
      (List.mem_map_of_mem (fun kv => (kv.1, σ kv.1 (noisyPriorDist kv))) hmem)
    rwa [hdist] at h

/-- C10: when the prior spec has no "noise_sd" key,
`NoisyNormalModel.likelihood` fails with a KeyError on "noise_sd" — with no
default noise fallback — and the failure happens only after every declared
parameter has been sampled at its own site and `forward` has been
evaluated on the sampled parameters. -/
theorem noisy_missing_noise_key {X : Type} (σ : Sampler)
    (forward : X → List (String × ℝ) → ℝ) (priors : List (String × ℝ × ℝ))
    (x : X) (h : "noise_sd" ∉ priors.map Prod.fst) :
    (NoisyNormalModel.likelihood σ forward priors x).result =
      Except.error (PyError.keyError "noise_sd") ∧
    (NoisyNormalModel.likelihood σ forward priors x).paramEvents.map Event.site =
      priors.map Prod.fst ∧
    (NoisyNormalModel.likelihood σ forward priors x).expected =
      forward x (NoisyNormalModel.likelihood σ forward priors x).params := by
  refine ⟨?_, ?_, rfl⟩
  · have hdl : dlookup "noise_sd"
        (priors.map fun kv => (kv.1, σ kv.1 (noisyPriorDist kv))) = none :=
      dlookup_eq_none (by rw [pair_keys_eq]; exact h)
    simp only [noisy_result_eq, noisy_params_eq, hdl]
  · show ((priors.map fun kv => pyroSample σ kv.1 (noisyPriorDist kv)).map
        Event.site) = _
    rw [List.map_map]
    exact List.map_congr_left fun kv _ => rfl

/-- C4: invoking a `NormalModel` as a callable on a record with fields "x"
and "y" runs the likelihood procedure conditioned so that the sample site
named "likelihood" is fixed to the observed "y" (hence the returned sample
is exactly `y`), with "x" as the input; every parameter site, none of which
is named "likelihood", still consults the unconditioned sampler. -/
theorem model_call_conditions_likelihood {X : Type} (σ : Sampler)
    (forward : X → List (String × ℝ) → ℝ) (priors : List (String × ℝ × ℝ))
    (data : ObsData X) (h : "likelihood" ∉ priors.map Prod.fst) :
    (BaseModel.call (fun σc x => NormalModel.likelihood σc forward priors x)
        σ data).ret = data.y ∧
    (BaseModel.call (fun σc x => NormalModel.likelihood σc forward priors x)
        σ data).params =
      (NormalModel.likelihood σ forward priors data.x).params := by
  constructor
  · show (NormalModel.likelihood (pyroCondition [("likelihood", data.y)] σ)
        forward priors data.x).ret = data.y
    simp [NormalModel.likelihood, pyroSample, pyroCondition, dlookup]
  · show (NormalModel.likelihood (pyroCondition [("likelihood", data.y)] σ)
        forward priors data.x).params = _
    rw [normal_params_eq, normal_params_eq]
    refine List.map_congr_left fun kv hkv => ?_
    have hne : "likelihood" ≠ kv.1 :=
      fun he => h (he ▸ List.mem_map_of_mem Prod.fst hkv)
    simp [pyroCondition, dlookup, hne]

/-- C9: the Gaussian model's likelihood is deterministic given the sampling
primitive's outputs: for priors with positive scales, two runs on the same
data whose samplers agree at every named site (the parameter names and
"likelihood") produce the same sampled parameters, trace and output. -/
theorem normal_model_deterministic {X : Type} (σ₁ σ₂ : Sampler)
    (forward : X → List (String × ℝ) → ℝ) (priors : List (String × ℝ × ℝ))
    (x : X)
    (hpos : ∀ kv ∈ priors, (0 : ℝ) < kv.2.2)
    (hagree : ∀ s ∈ "likelihood" :: priors.map Prod.fst, ∀ d, σ₁ s d = σ₂ s d) :
    NormalModel.likelihood σ₁ forward priors x =
      NormalModel.likelihood σ₂ forward priors x := by
  have hev : (priors.map fun kv =>
        pyroSample σ₁ kv.1 (Distribution.Normal kv.2.1 kv.2.2)) =
      priors.map fun kv => pyroSample σ₂ kv.1 (Distribution.Normal kv.2.1 kv.2.2) :=
    List.map_congr_left fun kv hkv => by
      unfold pyroSample
      rw [hagree kv.1 (List.mem_cons_of_mem _ (List.mem_map_of_mem Prod.fst hkv))]
  have hlik : ∀ d, σ₁ "likelihood" d = σ₂ "likelihood" d :=
    hagree "likelihood" (List.mem_cons_self _ _)
  unfold NormalModel.likelihood
  rw [hev]
  unfold pyroSample
  simp only [hlik]

/-- C6: `HolopyAlphaModel.forward` reads the six entries x, y, z, n, r,
alpha from the sampled parameters (whatever their autograd flags — each is
detached before conversion), builds a sphere with center (x, y, z),
refractive index n and radius r, calls the external calculator on the
input together with that sphere and the scaling factor alpha, and returns
the calculator's squeezed values converted back into a tensor. -/
theorem holopy_forward_eq {X : Type} (calc_holo : X → Sphere → ℝ → Hologram)
    (x : X) (params : List (String × Tensor0)) (tx ty tz tn tr ta : Tensor0)
    (hx : dlookup "x" params = some tx) (hy : dlookup "y" params = some ty)
    (hz : dlookup "z" params = some tz) (hn : dlookup "n" params = some tn)
    (hr : dlookup "r" params = some tr) (ha : dlookup "alpha" params = some ta) :
    HolopyAlphaModel.forward calc_holo x params =
      Except.ok (torch.from_numpy
        ((calc_holo x
            { center := (tx.val, ty.val, tz.val), n := tn.val, r := tr.val }
            ta.val).values.squeeze)) := by
  simp only [HolopyAlphaModel.forward, dictGetT, hx, hy, hz, hn, hr, ha,
    Tensor0.detach, Tensor0.numpy]
  rfl

/-! ### Witnesses: each theorem with hypotheses applied at a concrete input -/

/-- C1 (witness): the log-noise consistency instantiated on a concrete
prior spec containing "noise_sd" ↦ (2, 3). -/
theorem noisy_lognoise_consistent_witness :
    ((("noise_sd", ((2 : ℝ), (3 : ℝ))) ∈ noisyPriors ∧
      (noisyPriors.map Prod.fst).Nodup)) ∧
    (dlookup "noise_sd"
        (NoisyNormalModel.likelihood constSampler zeroForward noisyPriors ()).params =
      some (constSampler "noise_sd"
        (Distribution.Normal (Real.log 2) (Real.log 3))) ∧
    (NoisyNormalModel.likelihood constSampler zeroForward noisyPriors ()).result =
      Except.ok (pyroSample constSampler "likelihood"
        (Distribution.Normal
          (NoisyNormalModel.likelihood constSampler zeroForward noisyPriors ()).expected
          (Real.exp (constSampler "noise_sd"
              (Distribution.Normal (Real.log 2) (Real.log 3))) ^ 2)))) :=
  ⟨⟨by simp [noisyPriors], by decide⟩,
   noisy_lognoise_consistent constSampler zeroForward noisyPriors () 2 3
     (by simp [noisyPriors]) (by decide)⟩

/-- C5 (witness): the plain-Gaussian parameter sampling instantiated on the
prior entry "a" ↦ (0, 1) of the concrete noisy spec. -/
theorem noisy_other_params_normal_witness :
    ((("a", ((0 : ℝ), (1 : ℝ))) ∈ noisyPriors ∧ "a" ≠ "noise_sd" ∧
      (noisyPriors.map Prod.fst).Nodup)) ∧
    ((NoisyNormalModel.likelihood constSampler zeroForward noisyPriors ()).paramEvents.filter
        (fun e => e.site == "a") =
      [Event.mk "a" (Distribution.Normal 0 1)
        (constSampler "a" (Distribution.Normal 0 1))] ∧
    dlookup "a"
        (NoisyNormalModel.likelihood constSampler zeroForward noisyPriors ()).params =
      some (constSampler "a" (Distribution.Normal 0 1))) :=
  ⟨⟨by simp [noisyPriors], by decide, by decide⟩,
   noisy_other_params_normal constSampler zeroForward noisyPriors () "a" 0 1
     (by simp [noisyPriors]) (by decide) (by decide)⟩

/-- C10 (witness): the KeyError behaviour instantiated on the concrete
prior spec without a "noise_sd" key. -/
theorem noisy_missing_noise_key_witness :
    ("noise_sd" ∉ gaussPriors.map Prod.fst) ∧
    ((NoisyNormalModel.likelihood constSampler zeroForward gaussPriors ()).result =
      Except.error (PyError.keyError "noise_sd") ∧
    (NoisyNormalModel.likelihood constSampler zeroForward gaussPriors ()).paramEvents.map
        Event.site = gaussPriors.map Prod.fst ∧
    (NoisyNormalModel.likelihood constSampler zeroForward gaussPriors ()).expected =
      zeroForward ()
        (NoisyNormalModel.likelihood constSampler zeroForward gaussPriors ()).params) :=
  ⟨by decide,
   noisy_missing_noise_key constSampler zeroForward gaussPriors () (by decide)⟩

/-- C4 (witness): the conditioning behaviour instantiated on a concrete
observation record and prior spec. -/
theorem model_call_conditions_likelihood_witness :
    ("likelihood" ∉ gaussPriors.map Prod.fst) ∧
    ((BaseModel.call
        (fun σc x => NormalModel.likelihood σc zeroForward gaussPriors x)
        constSampler obs0).ret = obs0.y ∧
    (BaseModel.call
        (fun σc x => NormalModel.likelihood σc zeroForward gaussPriors x)
        constSampler obs0).params =
      (NormalModel.likelihood constSampler zeroForward gaussPriors obs0.x).params) :=
  ⟨by decide,
   model_call_conditions_likelihood constSampler zeroForward gaussPriors obs0
     (by decide)⟩

/-- C9 (witness): determinism instantiated with the constant sampler on the
concrete positive-scale prior spec. -/
theorem normal_model_deterministic_witness :
    ((∀ kv ∈ gaussPriors, (0 : ℝ) < kv.2.2) ∧
     (∀ s ∈ "likelihood" :: gaussPriors.map Prod.fst, ∀ d,
        constSampler s d = constSampler s d)) ∧
    NormalModel.likelihood constSampler zeroForward gaussPriors () =
      NormalModel.likelihood constSampler zeroForward gaussPriors () :=
  ⟨⟨by simp [gaussPriors], fun s hs d => rfl⟩,
   normal_model_deterministic constSampler constSampler zeroForward gaussPriors ()
     (by simp [gaussPriors]) (fun s hs d => rfl)⟩

/-- C6 (witness): the scattering forward model instantiated on concrete
gradient-tracked parameters and a constant calculator. -/
theorem holopy_forward_eq_witness :
    (dlookup "x" sphereParams = some { val := 1, requires_grad := true } ∧
     dlookup "y" sphereParams = some { val := 2, requires_grad := true } ∧
     dlookup "z" sphereParams = some { val := 3, requires_grad := true } ∧
     dlookup "n" sphereParams = some { val := 4, requires_grad := true } ∧
     dlookup "r" sphereParams = some { val := 5, requires_grad := true } ∧
     dlookup "alpha" sphereParams = some { val := 6, requires_grad := true }) ∧
    HolopyAlphaModel.forward constCalc () sphereParams =
      Except.ok (torch.from_numpy
        ((constCalc () { center := (1, 2, 3), n := 4, r := 5 } 6).values.squeeze)) :=
  ⟨⟨rfl, rfl, rfl, rfl, rfl, rfl⟩,
   holopy_forward_eq constCalc () sphereParams
     { val := 1, requires_grad := true } { val := 2, requires_grad := true }
     { val := 3, requires_grad := true } { val := 4, requires_grad := true }
     { val := 5, requires_grad := true } { val := 6, requires_grad := true }
     rfl rfl rfl rfl rfl rfl⟩

end Holo
